import Mathlib

/-!
Verification of the NocoDB → Baserow migration engine (`putData.py`,
`components/data_transformer.py`, `components/putData_enhanced.py`).

The Python source is shallowly embedded: JSON values become the inductive
`JValue`, Python dicts become association lists (insertion order preserved,
assignment overwrites in place, lookup finds the first key), and the
orchestrator's per-record loop becomes an explicit state-passing fold.
Network effects (row creation / patching / clearing) are recorded in the
state as an explicit call trace; the destination's response to a create
call is an oracle `env : Nat → Option Nat` giving the id assigned by the
i-th create call (`none` models a raised request exception, which the
per-record handler catches).  Python string operations are modelled on the
underlying character lists (ASCII case folding; JSON numbers are restricted
to integers — no verified claim depends on non-integral numerics).
-/

namespace Mig

/-- A JSON value, as loaded by `json.load` in `putData.py`. -/
inductive JValue where
  | null
  | b (x : Bool)
  | i (n : Int)
  | s (v : String)
  | arr (xs : List JValue)
  | obj (kvs : List (String × JValue))

/-- A hashable Python dict key, as used by the identifier registry
`self.id_mappings[table_name][old_id]`.  Python's `True == 1` / `False == 0`
key identification is reflected by collapsing booleans into integers. -/
inductive JKey where
  | knull
  | ki (n : Int)
  | ks (v : String)
deriving DecidableEq

/-- Python hashing of a JSON value: lists and dicts are unhashable
(`TypeError`), booleans collapse to the integers 0/1. -/
def toKey : JValue → Option JKey
  | .null => some .knull
  | .b x => some (.ki (if x then 1 else 0))
  | .i n => some (.ki n)
  | .s v => some (.ks v)
  | .arr _ => none
  | .obj _ => none

/-- Python truthiness of a JSON value. -/
def pyTruthy : JValue → Bool
  | .null => false
  | .b x => x
  | .i n => n != 0
  | .s v => v != ""
  | .arr xs => !xs.isEmpty
  | .obj kvs => !kvs.isEmpty

/-- ASCII lower-casing of one character (Python `str.lower` on the ASCII
range, which covers every key and field name in this data set). -/
def pyCharLower (c : Char) : Char :=
  if 'A' ≤ c && c ≤ 'Z' then Char.ofNat (c.toNat + 32) else c

/-- Python `str.lower`. -/
def pyLower (str : String) : String := ⟨str.data.map pyCharLower⟩

/-- Python `str.startswith`. -/
def pyStartsWith (str pre : String) : Bool := pre.data.isPrefixOf str.data

/-- Python whitespace characters recognised by `str.strip()`. -/
def isPySpace (c : Char) : Bool :=
  c = ' ' || c = '\t' || c = '\n' || c = '\x0d' || c = '\x0b' || c = '\x0c'

/-- Python `str.strip()` on a character list. -/
def stripChars (cs : List Char) : List Char :=
  ((cs.dropWhile isPySpace).reverse.dropWhile isPySpace).reverse

/-- Python `str.strip()`. -/
def pyStrip (str : String) : String := ⟨stripChars str.data⟩

/-- Python `str.isdigit` (ASCII digits; nonempty). -/
def pyIsDigit (str : String) : Bool := !str.data.isEmpty && str.data.all Char.isDigit

/-- Decimal digits of a natural number, most significant first.  The fuel
argument keeps the recursion structural so that terms reduce in the kernel;
`fuel = n + 1` always suffices. -/
def natDigitsAux : Nat → Nat → List Char
  | 0, _ => []
  | fuel + 1, n =>
    if n < 10 then [Nat.digitChar n]
    else natDigitsAux fuel (n / 10) ++ [Nat.digitChar (n % 10)]

/-- Decimal rendering of a natural number (Python `str` of a nonnegative int). -/
def natDec (n : Nat) : String := ⟨natDigitsAux (n + 1) n⟩

/-- Python `str` of an int. -/
def pyIntStr (n : Int) : String :=
  if n < 0 then "-" ++ natDec (-n).toNat else natDec n.toNat

mutual

/-- Python `str()` of a JSON value (`repr` for values nested inside
containers; string escaping inside `repr` is not modelled — no claim
depends on the rendering of containers). -/
def pyStr : JValue → String
  | .null => "None"
  | .b true => "True"
  | .b false => "False"
  | .i n => pyIntStr n
  | .s v => v
  | .arr xs => "[" ++ pyStrList xs ++ "]"
  | .obj kvs => "\x7b" ++ pyStrObj kvs ++ "\x7d"
termination_by structural v => v

def pyStrList : List JValue → String
  | [] => ""
  | [.s v] => "'" ++ v ++ "'"
  | [x] => pyStr x
  | .s v :: xs => "'" ++ v ++ "'" ++ ", " ++ pyStrList xs
  | x :: xs => pyStr x ++ ", " ++ pyStrList xs
termination_by structural l => l

def pyStrObj : List (String × JValue) → String
  | [] => ""
  | [(k, .s v)] => "'" ++ k ++ "': " ++ "'" ++ v ++ "'"
  | [(k, v)] => "'" ++ k ++ "': " ++ pyStr v
  | (k, .s v) :: kvs => "'" ++ k ++ "': " ++ "'" ++ v ++ "'" ++ ", " ++ pyStrObj kvs
  | (k, v) :: kvs => "'" ++ k ++ "': " ++ pyStr v ++ ", " ++ pyStrObj kvs
termination_by structural l => l

end

/-- First-match association-list lookup: Python `dict.get` /
`key in dict` on a string-keyed dict. -/
def alookup {α : Type} (l : List (String × α)) (key : String) : Option α :=
  match l with
  | [] => none
  | (k, v) :: rest => if k = key then some v else alookup rest key

/-- Python dict assignment `d[k] = v`: overwrite in place if the key is
present (keeping its original position), else append. -/
def dinsert {α : Type} (key : String) (val : α) : List (String × α) → List (String × α)
  | [] => [(key, val)]
  | (k, v) :: rest =>
    if k = key then (k, val) :: rest else (k, v) :: dinsert key val rest

/-- Python dict assignment on a `JKey`-keyed dict. -/
def kinsert {α : Type} (key : JKey) (val : α) : List (JKey × α) → List (JKey × α)
  | [] => [(key, val)]
  | (k, v) :: rest =>
    if k = key then (k, val) :: rest else (k, v) :: kinsert key val rest

/-- Python `dict.get` on a `JKey`-keyed dict. -/
def klookup {α : Type} (l : List (JKey × α)) (key : JKey) : Option α :=
  match l with
  | [] => none
  | (k, v) :: rest => if k = key then some v else klookup rest key

/-- A raw source record: the key/value pairs of one JSON object. -/
def Record := List (String × JValue)

/-- `FieldInfo` (`putData.py` / `schema_analyzer.py`): one destination field. -/
structure FieldInfo where
  id : Nat
  name : String
  type : String
  primary : Bool := false
  required : Bool := false
  linked_table_id : Option Nat := none
deriving DecidableEq

/-- `TableSchema` (`putData.py` / `schema_analyzer.py`): the fields of one
destination table. -/
structure TableSchema where
  table_id : Nat
  table_name : String
  fields : List FieldInfo
deriving DecidableEq

/-- `TableSchema.get_field_by_name`: first case-insensitive name match. -/
def getFieldByName (schema : TableSchema) (name : String) : Option FieldInfo :=
  schema.fields.find? (fun f => pyLower f.name = pyLower name)

/-- Substring containment on character lists (Python `sub in s`). -/
def listContainsSub (sub : List Char) : List Char → Bool
  | [] => sub.isEmpty
  | c :: rest => sub.isPrefixOf (c :: rest) || listContainsSub sub rest

/-- Python `sub in s` for strings. -/
def containsSub (str sub : String) : Bool := listContainsSub sub.data str.data

/-- `CamillaMigrationManager._is_date_field` (`putData.py` 473-476) and the
identical `is_date_field` of `putData_enhanced.py` 103-106. -/
def is_date_field (field_name : String) : Bool :=
  ["date", "established", "start", "end", "createdat", "updatedat"].any
    (fun indicator => containsSub (pyLower field_name) indicator)

/-- `CamillaMigrationManager._normalize_date` (`putData.py` 478-494):
`'T'`-containment is checked first, then 4-digit years, then any length-10
string with exactly two dashes; anything else yields `None` (with a
diagnostic print, not modelled). -/
def normalize_date (value : JValue) : Option String :=
  if !pyTruthy value then none
  else
    let ds := pyStrip (pyStr value)
    if containsSub ds "T" then some ⟨ds.data.takeWhile (fun c => c ≠ 'T')⟩
    else if ds.length = 4 && pyIsDigit ds then some (ds ++ "-01-01")
    else if ds.length = 10 && (ds.data.filter (fun c => c = '-')).length = 2 then some ds
    else none

/-- The regex `^\d{4}-\d{2}-\d{2}` applied to exactly ten characters. -/
def dateShape : List Char → Bool
  | [c1, c2, c3, c4, d1, c5, c6, d2, c7, c8] =>
    c1.isDigit && c2.isDigit && c3.isDigit && c4.isDigit && d1 = '-' &&
    c5.isDigit && c6.isDigit && d2 = '-' && c7.isDigit && c8.isDigit
  | _ => false

/-- `re.match(r'^\d{4}$', s)` (`data_transformer.py` 16). -/
def matchYear (str : String) : Bool := str.data.length = 4 && str.data.all Char.isDigit

/-- `re.match(r'^\d{4}-\d{2}-\d{2}T', s)` (`data_transformer.py` 17). -/
def matchISO (str : String) : Bool :=
  dateShape (str.data.take 10) && str.data[10]? = some 'T'

/-- `re.match(r'^\d{4}-\d{2}-\d{2}$', s)` (`data_transformer.py` 18). -/
def matchDateOnly (str : String) : Bool := dateShape str.data

/-- `DataTransformer._normalize_date` (`data_transformer.py` 81-95): the
three `date_patterns` tried in order on the stripped string form; `None`
on no match. -/
def dtNormalizeDate (value : JValue) : Option String :=
  if !pyTruthy value then none
  else
    let ds := pyStrip (pyStr value)
    if matchYear ds then some (ds ++ "-01-01")
    else if matchISO ds then some ⟨ds.data.take 10⟩
    else if matchDateOnly ds then some ds
    else none

/-- A cleaned destination value: the transforms produce strings, booleans,
or (in the component transformer's number path) floats.  A float is
represented by the text it was parsed from; no verified claim compares
float values. -/
inductive CleanVal where
  | vs (v : String)
  | vb (v : Bool)
  | vnum (raw : String)
deriving DecidableEq

/-- `CamillaMigrationManager._transform_value` (`putData.py` 457-471):
`None`/empty-string pass through as `None`; date-named fields go through
`_normalize_date`; booleans survive; everything else is stringified. -/
def transform_value (value : JValue) (field_name : String) : Option CleanVal :=
  match value with
  | .null => none
  | .s "" => none
  | v =>
    if is_date_field field_name then (normalize_date v).map .vs
    else
      match v with
      | .b x => some (.vb x)
      | _ => some (.vs (pyStr v))

/-- Does a JSON value test `isinstance(value, dict) and 'Id' in value`? -/
def isObjWithId : JValue → Bool
  | .obj kvs => (alookup kvs "Id").isSome
  | _ => false

/-- The key of the destination field with the given numeric id
(Python `f"field_{field_info.id}"`). -/
def fieldKey (n : Nat) : String := "field_" ++ natDec n

/-- One iteration of the `transform_record_data` loop (`putData.py`
398-455), threading the `cleaned_data` dict.  The static field mapping is
represented by the numeric destination field ids (its values are the
strings `f"field_{id}"`, produced at `putData.py` 392; the code's
`int(field_id.replace('field_', ''))` recovers exactly this id).  The
numeric-reference heuristic of lines 441-446 and the plain `continue` for
unmapped fields both skip the entry, as in the source. -/
def transformEntry (field_mapping : List (String × Nat)) (table_name : String)
    (table_schemas : List (String × TableSchema))
    (cleaned : List (String × CleanVal)) (kv : String × JValue) :
    List (String × CleanVal) :=
  let json_field := kv.1
  let value := kv.2
  if pyStartsWith json_field "_nc_m2m_" ||
      (json_field = "CreatedAt" || json_field = "UpdatedAt" || json_field = "Id") ||
      isObjWithId value then
    cleaned
  else
    let addValue (field_id : String) : List (String × CleanVal) :=
      match transform_value value json_field with
      | some tv => dinsert field_id tv cleaned
      | none => cleaned
    match alookup field_mapping json_field with
    | some fid_num =>
      match alookup table_schemas table_name with
      | some schema =>
        match schema.fields.find? (fun f => f.id = fid_num) with
        | some finfo =>
          if finfo.type = "link_row" then cleaned else addValue (fieldKey fid_num)
        | none => addValue (fieldKey fid_num)
      | none => addValue (fieldKey fid_num)
    | none =>
      match alookup table_schemas table_name with
      | some schema =>
        match getFieldByName schema json_field with
        | some finfo =>
          if finfo.type = "link_row" then cleaned else addValue (fieldKey finfo.id)
        | none => cleaned
      | none => cleaned

/-- `CamillaMigrationManager.transform_record_data` (`putData.py` 398-455). -/
def transform_record_data (record : Record) (field_mapping : List (String × Nat))
    (table_name : String) (table_schemas : List (String × TableSchema)) :
    List (String × CleanVal) :=
  record.foldl (transformEntry field_mapping table_name table_schemas) []

/-- `CamillaMigrationManager.extract_relationships` (`putData.py` 496-509). -/
def extract_relationships (record : Record) : List (String × List JValue) :=
  record.foldl
    (fun rels kv =>
      match kv with
      | (key, .arr xs) =>
        if pyStartsWith key "_nc_m2m_" then dinsert key xs rels else rels
      | (key, .obj kvs) =>
        match alookup kvs "Id" with
        | some idv => dinsert ("object_" ++ key) [idv] rels
        | none => rels
      | _ => rels)
    []

/-- The static per-table field-name mappings of `create_field_mapping`
(`putData.py` 251-382). -/
def field_mappings_static : List (String × List (String × String)) :=
  [("Location",
    [("location", "Name"), ("notes", "notes"), ("latitude (N)", "latitude_n"),
     ("longitude (E)", "longitude_e"), ("admin_level_country", "admin_level_country")]),
   ("People",
    [("first_name", "Name"), ("last_name1", "last_name1"), ("notes", "notes"),
     ("discursive_oil_id", "discursive_oil_id"), ("discursive_oil_id1", "discursive_oil_id1"),
     ("attachment", "attachment"), ("discursive_oil", "discursive_oil"),
     ("discursive_oil_copy", "discursive_oil_copy")]),
   ("Entity",
    [("name", "Name"), ("operating_locations", "operating_locations"),
     ("entity_national_affiliation", "entity_national_affiliation"),
     ("descriptive_name", "descriptive_name"), ("entity_type (past)", "entity_type_past"),
     ("established-date", "established_date"), ("activity focus", "activity_focus"),
     ("notes", "notes"), ("current status", "current_status"), ("Attachment", "attachment")]),
   ("Role",
    [("role", "Name"), ("title", "title"), ("description", "description"),
     ("department", "department"), ("subdepartment", "subdepartment"), ("notes", "notes"),
     ("start_date", "start_date"), ("end_date", "end_date")]),
   ("Source",
    [("title", "Name"), ("unique-identifier", "unique_identifier"), ("NB", "nb"),
     ("Source_date", "source_date"), ("author", "author"), ("type-source", "type_source")]),
   ("Infrastructure",
    [("infrastructure_name", "Name"), ("infrastructure_type", "infrastructure_type"),
     ("notes", "notes"), ("Attachment", "attachment"), ("status", "status")]),
   ("Licenses",
    [("start-date", "start_date"), ("geographic_scope", "geographic_scope"),
     ("Exploration License", "exploration_license")]),
   ("Ecosystem",
    [("title", "Name"), ("consequence_type", "consequence_type"),
     ("consequence_positive_negative", "consequence_positive_negative"),
     ("consequence_communities", "consequence_communities"), ("notes", "notes")]),
   ("Transactions",
    [("Title", "Name"), ("Transaction type", "transaction_type"),
     ("Date_recorded", "date_recorded"), ("notes", "notes"),
     ("regulated-activity", "regulated_activity")]),
   ("Actions-timeline",
    [("title", "Name"), ("start-date", "start_date"), ("end-date", "end_date"),
     ("product", "product"), ("type-of-action", "type_of_action")]),
   ("Discursive-oil",
    [("Title", "Name"), ("communication_date", "communication_date"),
     ("related_feeling", "related_feeling"), ("notes", "notes"),
     ("obsidian_reference", "obsidian_reference"), ("type of source", "type_of_source"),
     ("author", "author"), ("recipient", "recipient")]),
   ("Related-events",
    [("event_title", "Name"), ("event_date_start", "event_date_start"),
     ("event_date_end", "event_date_end"), ("event_type", "event_type"),
     ("source_obsidian", "source_obsidian"), ("notes", "notes")]),
   ("Memory",
    [("memory_title", "Name"), ("memory_type", "memory_type"),
     ("date_recorded", "date_recorded"), ("description", "description"),
     ("notes", "notes")])]

/-- `CamillaMigrationManager.create_field_mapping` (`putData.py` 244-396):
resolves the static names against the schema; missing destination fields
are dropped with a diagnostic.  The result maps source keys to the numeric
destination field id (the code stores the string `f"field_{id}"`). -/
def create_field_mapping (table_name : String)
    (table_schemas : List (String × TableSchema)) : List (String × Nat) :=
  match alookup table_schemas table_name with
  | none => []
  | some schema =>
    ((alookup field_mappings_static table_name).getD []).foldl
      (fun acc kv =>
        match getFieldByName schema kv.2 with
        | some finfo => dinsert kv.1 finfo.id acc
        | none => acc)
      []

/-- One entry of the static `relationship_mappings` routing table
(`putData.py` 517-659): `id_field = none` encodes `'direct_id': True`. -/
structure RelMapping where
  field_name : String
  source_table : String
  id_field : Option String
deriving DecidableEq

/-- The static relationship-routing table (`putData.py` 517-659). -/
def relationship_mappings : List (String × List (String × RelMapping)) :=
  [("Infrastructure",
    [("_nc_m2m_infrastructure_locations", ⟨"linked_location", "Location", some "location_id"⟩),
     ("_nc_m2m_entity_infrastructures", ⟨"linked_entities", "Entity", some "entity_id"⟩),
     ("_nc_m2m_infrastructure_discursive_oils",
      ⟨"linked_discursive_oil", "Discursive-oil", some "discursive_oil_id"⟩),
     ("_nc_m2m_ecosystem_conse_infrastructures",
      ⟨"linked_ecosystem", "Ecosystem", some "ecosystem_id"⟩),
     ("_nc_m2m_related_events_infrastructures",
      ⟨"linked_related_events", "Related-events", some "related_events_id"⟩)]),
   ("Transactions",
    [("_nc_m2m_transactions_entities", ⟨"linked_entities", "Entity", some "entity_id"⟩),
     ("_nc_m2m_transactions_people", ⟨"linked_people", "People", some "people_id"⟩),
     ("_nc_m2m_transactions_primary_sources",
      ⟨"linked_sources", "Source", some "primary_sources_id"⟩),
     ("_nc_m2m_transactions_discursive_oils",
      ⟨"linked_discursive_oil", "Discursive-oil", some "discursive_oil_id"⟩)]),
   ("Discursive-oil",
    [("object_author", ⟨"linked_author", "People", none⟩),
     ("object_recipient", ⟨"linked_recipient", "People", none⟩),
     ("_nc_m2m_discursive_oil_primary_sources",
      ⟨"linked_sources", "Source", some "primary_sources_id"⟩)]),
   ("People",
    [("_nc_m2m_people_roles", ⟨"linked_roles", "Role", some "role_id"⟩),
     ("_nc_m2m_related_events_people",
      ⟨"linked_related_events", "Related-events", some "related_events_id"⟩),
     ("_nc_m2m_actions-timelin_people",
      ⟨"linked_actions_timeline", "Actions-timeline", some "actions_timeline_id"⟩),
     ("_nc_m2m_transactions_people",
      ⟨"linked_transactions", "Transactions", some "transactions_id"⟩)]),
   ("Role",
    [("_nc_m2m_people_roles", ⟨"linked_people", "People", some "people_id"⟩),
     ("_nc_m2m_role_entities", ⟨"linked_entities", "Entity", some "entity_id"⟩),
     ("_nc_m2m_role_locations", ⟨"linked_locations", "Location", some "location_id"⟩)]),
   ("Actions-timeline",
    [("_nc_m2m_actions-timelin_people", ⟨"linked_people", "People", some "people_id"⟩)]),
   ("Related-events",
    [("_nc_m2m_related_events_people", ⟨"linked_people", "People", some "people_id"⟩),
     ("_nc_m2m_related_events_infrastructures",
      ⟨"linked_infrastructures", "Infrastructure", some "infrastructure_id"⟩)]),
   ("Memory", [])]

/-- The identifier registry `self.id_mappings`: table name → (source id →
destination id). -/
def Registry := List (String × List (JKey × Nat))

/-- The id-conversion loop for a `direct_id` mapping (`putData.py`
686-691).  `none` models the `TypeError` Python raises when an unhashable
(list/dict) id is used as a dict key; falsy destination ids are dropped by
the `if new_id:` guard. -/
def resolveDirect (reg : List (JKey × Nat)) : List JValue → Option (List Nat)
  | [] => some []
  | old_id :: rest =>
    match toKey old_id with
    | none => none
    | some k =>
      let hd :=
        match klookup reg k with
        | some nid => if nid ≠ 0 then [nid] else []
        | none => []
      (resolveDirect reg rest).map (hd ++ ·)

/-- The id-conversion loop for a join-table mapping (`putData.py`
693-701): non-dict join rows are skipped, falsy join ids are skipped by
`if old_id:`, unregistered or falsy destination ids are dropped. -/
def resolveJoin (reg : List (JKey × Nat)) (id_field : String) :
    List JValue → Option (List Nat)
  | [] => some []
  | rel :: rest =>
    let hd? : Option (List Nat) :=
      match rel with
      | .obj kvs =>
        let old_id := (alookup kvs id_field).getD .null
        if pyTruthy old_id then
          match toKey old_id with
          | none => none
          | some k =>
            some (match klookup reg k with
                  | some nid => if nid ≠ 0 then [nid] else []
                  | none => [])
        else some []
      | _ => some []
    match hd? with
    | none => none
    | some hd => (resolveJoin reg id_field rest).map (hd ++ ·)

/-- The state the relationship resolver can see: the identifier registry
and the schema cache (`self.id_mappings`, `self.table_schemas`). -/
structure ResolverState where
  id_mappings : Registry
  table_schemas : List (String × TableSchema)

/-- One iteration of the `map_relationships_to_baserow` loop (`putData.py`
664-704), with the state it reads threaded through explicitly.  The
routing lookup, the `not rel_data` guard, the schema-drift skips and the
best-effort id resolution follow the source; `none` in the second
component models a propagating `TypeError` (unhashable id). -/
def mapRelStep (st : ResolverState) (table_name : String)
    (acc : List (String × List Nat)) (kv : String × List JValue) :
    ResolverState × Option (List (String × List Nat)) :=
  let rel_key := kv.1
  let rel_data := kv.2
  match alookup ((alookup relationship_mappings table_name).getD []) rel_key with
  | none => (st, some acc)
  | some mapping =>
    if rel_data.isEmpty then (st, some acc)
    else
      match alookup st.table_schemas table_name with
      | none => (st, some acc)
      | some schema =>
        match getFieldByName schema mapping.field_name with
        | none => (st, some acc)
        | some finfo =>
          let reg := (alookup st.id_mappings mapping.source_table).getD []
          let resolved :=
            match mapping.id_field with
            | none => resolveDirect reg rel_data
            | some idf => resolveJoin reg idf rel_data
          match resolved with
          | none => (st, none)
          | some new_ids =>
            (st, some (if new_ids.isEmpty then acc else dinsert (fieldKey finfo.id) new_ids acc))

/-- The full `map_relationships_to_baserow` loop, threading state. -/
def mapRelGoS (st : ResolverState) (table_name : String) :
    List (String × List JValue) → List (String × List Nat) →
    ResolverState × Option (List (String × List Nat))
  | [], acc => (st, some acc)
  | kv :: rest, acc =>
    match mapRelStep st table_name acc kv with
    | (st', none) => (st', none)
    | (st', some acc') => mapRelGoS st' table_name rest acc'

/-- `CamillaMigrationManager.map_relationships_to_baserow` (`putData.py`
511-706) as a function of the state it reads. -/
def map_relationships_to_baserow (relationships : List (String × List JValue))
    (table_name : String) (st : ResolverState) :
    Option (List (String × List Nat)) :=
  (mapRelGoS st table_name relationships []).2

/-- A destination-API mutation issued by the orchestrator
(`BaserowClient.create_row`, `update_row`, `clear_table`). -/
inductive ApiCall where
  | createRow (table_id : Nat) (data : List (String × CleanVal))
  | updateRow (table_id : Nat) (row_id : Nat) (data : List (String × List Nat))
  | clearTable (table_id : Nat)
deriving DecidableEq

/-- The orchestrator state visible to one `import_table_data` run: the
identifier registry and schema cache (`self.id_mappings`,
`self.table_schemas`), the per-table `success_count` / `error_count`
locals, the index of the next create call (consumed by the oracle), and
the trace of issued mutation calls. -/
structure LoopState where
  id_mappings : Registry
  table_schemas : List (String × TableSchema)
  success_count : Nat
  error_count : Nat
  next_create : Nat
  calls : List ApiCall

/-- `self.id_mappings[table_name][old_id] = result['id']`, creating the
per-table dict on first use (`putData.py` 771-775). -/
def registerId (reg : Registry) (table_name : String) (k : JKey) (new_id : Nat) : Registry :=
  dinsert table_name (kinsert k new_id ((alookup reg table_name).getD [])) reg

/-- The relationship pass of one record (`putData.py` 777-783):
`if relationships_data and result:` resolve, and patch only when the
resolved dict is non-empty.  A `TypeError` raised inside resolution is
caught by the per-record handler (error counted, no success). -/
def afterCreate (table_id : Nat) (table_name : String)
    (relationships_data : List (String × List JValue))
    (st : LoopState) (new_id : Nat) : LoopState :=
  if relationships_data.isEmpty then
    { st with success_count := st.success_count + 1 }
  else
    match map_relationships_to_baserow relationships_data table_name
        ⟨st.id_mappings, st.table_schemas⟩ with
    | none => { st with error_count := st.error_count + 1 }
    | some baserow_relationships =>
      if baserow_relationships.isEmpty then
        { st with success_count := st.success_count + 1 }
      else
        { st with
          calls := st.calls ++ [.updateRow table_id new_id baserow_relationships],
          success_count := st.success_count + 1 }

/-- One iteration of the `import_table_data` record loop (`putData.py`
758-798).  The oracle `env` gives the id the destination assigns to the
i-th create call; `env i = none` models a request exception, caught by the
per-record handler.  An unhashable (list/dict) `Id` raises a `TypeError`
at registration time, likewise caught. -/
def processRecord (env : Nat → Option Nat) (table_id : Nat) (table_name : String)
    (field_mapping : List (String × Nat)) (st : LoopState) (item : Record) : LoopState :=
  let relationships_data := extract_relationships item
  let cleaned_data := transform_record_data item field_mapping table_name st.table_schemas
  if cleaned_data.isEmpty then
    { st with error_count := st.error_count + 1 }
  else
    let st1 := { st with
      calls := st.calls ++ [.createRow table_id cleaned_data],
      next_create := st.next_create + 1 }
    match env st.next_create with
    | none => { st1 with error_count := st1.error_count + 1 }
    | some new_id =>
      let old_id := (alookup item "Id").getD .null
      if pyTruthy old_id then
        match toKey old_id with
        | none => { st1 with error_count := st1.error_count + 1 }
        | some k =>
          afterCreate table_id table_name relationships_data
            { st1 with id_mappings := registerId st1.id_mappings table_name k new_id }
            new_id
      else
        afterCreate table_id table_name relationships_data st1 new_id

/-- The registry as it stands when the relationship pass of a record runs:
the id-mapping step of `processRecord` (`putData.py` 771-775) applied to
the record's `Id`, for a record whose create call returned `new_id`.  A
truthy hashable id is registered; a falsy or missing id leaves the
registry unchanged (the unhashable-id error path never reaches the
relationship pass). -/
def registryAfterCreate (reg : Registry) (table_name : String) (item : Record)
    (new_id : Nat) : Registry :=
  let old_id := (alookup item "Id").getD .null
  if pyTruthy old_id then
    match toKey old_id with
    | some k => registerId reg table_name k new_id
    | none => reg
  else reg

/-- One item of the loaded JSON list: a non-object item raises inside the
`try` (its `.items()` call) and is counted as a record error. -/
def processItem (env : Nat → Option Nat) (table_id : Nat) (table_name : String)
    (field_mapping : List (String × Nat)) (st : LoopState) (item : JValue) : LoopState :=
  match item with
  | .obj kvs => processRecord env table_id table_name field_mapping st kvs
  | _ => { st with error_count := st.error_count + 1 }

/-- The record loop of `import_table_data` (`putData.py` 758-798). -/
def runRecords (env : Nat → Option Nat) (table_id : Nat) (table_name : String)
    (field_mapping : List (String × Nat)) (st : LoopState) (items : List JValue) : LoopState :=
  items.foldl (processItem env table_id table_name field_mapping) st

/-- The JSON-structure dispatch of `import_table_data` (`putData.py`
733-740): a top-level list, or an object with a `list` key. -/
def jsonItems : JValue → Option (List JValue)
  | .arr xs => some xs
  | .obj kvs =>
    match alookup kvs "list" with
    | some (.arr xs) => some xs
    | _ => none
  | _ => none

/-- The outcome of one `import_table_data` call: the final state, the
boolean return value, the record count printed after loading
(`"Found N records to import"`), and the `migration_stats` entry stored
for the table (success, errors, total) — absent on the early-return
paths, including dry-run. -/
structure ImportResult where
  final : LoopState
  ok : Bool
  reported_count : Option Nat
  stats : Option (Nat × Nat × Nat)

/-- `CamillaMigrationManager.import_table_data` (`putData.py` 708-812).
File I/O is abstracted: `json_data` is the parsed JSON document (a load
failure is an early `False` return that touches nothing, like the missing
table-id case).  `success_count` / `error_count` in the state model the
per-call local counters, so the loop starts them at zero. -/
def import_table_data (env : Nat → Option Nat) (table_mappings : List (String × Nat))
    (json_data : JValue) (table_name : String) (dry_run clear_table : Bool)
    (st : LoopState) : ImportResult :=
  match alookup table_mappings table_name with
  | none => ⟨st, false, none, none⟩
  | some table_id =>
    if table_id = 0 then ⟨st, false, none, none⟩
    else
      let st := if clear_table && !dry_run then
          { st with calls := st.calls ++ [.clearTable table_id] }
        else st
      match jsonItems json_data with
      | none => ⟨st, false, none, none⟩
      | some items =>
        if dry_run then ⟨st, true, some items.length, none⟩
        else
          let field_mapping := create_field_mapping table_name st.table_schemas
          let fin := runRecords env table_id table_name field_mapping
            { st with success_count := 0, error_count := 0 } items
          ⟨fin, decide (fin.success_count > 0), some items.length,
            some (fin.success_count, fin.error_count, items.length)⟩

/-- `DataTransformer._get_field_info_by_id` (`data_transformer.py` 55-61):
first field with the given numeric id (the mapping again carries the id of
the `f"field_{id}"` string). -/
def dtGetFieldInfoById (schema : TableSchema) (field_number : Nat) : Option FieldInfo :=
  schema.fields.find? (fun f => f.id = field_number)

/-- `DataTransformer._normalize_boolean` (`data_transformer.py` 97-103). -/
def dtNormalizeBoolean (value : JValue) : Bool :=
  match value with
  | .b x => x
  | v =>
    let sv := pyLower (pyStr v)
    sv = "true" || sv = "1" || sv = "yes" || sv = "on"

/-- Exponent suffix of a Python float literal: empty, or `e`/`E`, an
optional sign, and at least one digit. -/
def floatExpOk : List Char → Bool
  | [] => true
  | c :: rest =>
    if c = 'e' || c = 'E' then
      let digits := match rest with
        | d :: r => if d = '+' || d = '-' then r else d :: r
        | [] => []
      !digits.isEmpty && digits.all Char.isDigit
    else false

/-- Mantissa-plus-exponent body of a Python float literal. -/
def floatBody (cs : List Char) : Bool :=
  let intPart := cs.takeWhile Char.isDigit
  let rest := cs.dropWhile Char.isDigit
  match rest with
  | '.' :: rest2 =>
    let frac := rest2.takeWhile Char.isDigit
    let rest3 := rest2.dropWhile Char.isDigit
    (!intPart.isEmpty || !frac.isEmpty) && floatExpOk rest3
  | _ => !intPart.isEmpty && floatExpOk rest

/-- Does `float(value)` succeed?  Ints and bools always convert; strings
must be float literals (stripped, optional sign, `inf`/`infinity`/`nan`
or a decimal body; digit-group underscores are not modelled); `None`,
lists and dicts raise.  No verified claim depends on the resulting float
value, only on success versus failure. -/
def pyFloatParses (value : JValue) : Bool :=
  match value with
  | .i _ => true
  | .b _ => true
  | .s str =>
    let cs := stripChars str.data
    let cs := match cs with
      | c :: r => if c = '+' || c = '-' then r else c :: r
      | [] => []
    let low := cs.map pyCharLower
    low = "inf".data || low = "infinity".data || low = "nan".data || floatBody cs
  | _ => false

/-- `DataTransformer._normalize_number` (`data_transformer.py` 105-110). -/
def dtNormalizeNumber (value : JValue) : Option CleanVal :=
  match value with
  | .s "" => none
  | v => if pyFloatParses v then some (.vnum (pyStr v)) else none

/-- `DataTransformer._transform_value` (`data_transformer.py` 63-79):
dispatch on the destination field's declared type. -/
def dtTransformValue (value : JValue) (field_info : Option FieldInfo) : Option CleanVal :=
  match value with
  | .null => none
  | .s "" => none
  | v =>
    match field_info with
    | none => some (.vs (pyStr v))
    | some fi =>
      if fi.type = "date" then (dtNormalizeDate v).map .vs
      else if fi.type = "boolean" then some (.vb (dtNormalizeBoolean v))
      else if fi.type = "number" then dtNormalizeNumber v
      else some (.vs (pyStr v))

/-- One iteration of the `DataTransformer.transform_record` loop
(`data_transformer.py` 28-48), threading `(cleaned_data, relationships)`. -/
def dtTransformEntry (field_mapping : List (String × Nat)) (schema : TableSchema)
    (acc : List (String × CleanVal) × List (String × JValue)) (kv : String × JValue) :
    List (String × CleanVal) × List (String × JValue) :=
  let json_field := kv.1
  let value := kv.2
  if pyStartsWith json_field "_nc_m2m_" then
    (acc.1, dinsert json_field value acc.2)
  else
    match alookup field_mapping json_field with
    | none => acc
    | some fid =>
      match dtTransformValue value (dtGetFieldInfoById schema fid) with
      | some cv => (dinsert (fieldKey fid) cv acc.1, acc.2)
      | none => acc

/-- `DataTransformer.transform_record` (`data_transformer.py` 21-53). -/
def dtTransformRecord (record : Record) (field_mapping : List (String × Nat))
    (schema : TableSchema) : List (String × CleanVal) × List (String × JValue) :=
  record.foldl (dtTransformEntry field_mapping schema) ([], [])

/-- The metadata/computed-field skip set of `clean_data_for_baserow`
(`putData_enhanced.py` 117-133).  The Python set literal repeats a few
names; set semantics keep one copy. -/
def en_skip_fields : List String :=
  ["CreatedAt", "UpdatedAt", "Id",
   "roles", "transactions", "related_events", "actions-timelines",
   "discursive_oils", "entities", "is-part-of", "Infrastructure",
   "concessions-grantee", "concessions-granter", "locations",
   "infrastructures", "people", "primary-source", "author-entity",
   "parties_involved", "People Involved",
   "Writings about this", "concessions", "action-timeline",
   "infrastructure", "ecosystem-consequence", "source",
   "legal basis", "people-involved", "entities-involved",
   "related_people", "discussions-around", "ecosystem_consequences",
   "location (s)", "licenses",
   "actions- timeline", "Affiliated-entity", "location",
   "exploration-drillings", "exploration-productions",
   "granted_to", "granted_by", "convention", "infrastructure_linked"]

/-- The static part of `clean_field_name` (`putData_enhanced.py` 74-101). -/
def clean_field_name_static : List (String × String) :=
  [("last_name1", "last_name1"), ("first_name", "first_name"),
   ("established-date", "established_date"), ("entity_type (past)", "entity_type_past"),
   ("activity focus", "activity_focus"), ("operating locations", "operating_locations"),
   ("current status", "current_status"), ("latitude (N)", "latitude_n"),
   ("longitude (E)", "longitude_e"), ("unique-identifier", "unique_identifier"),
   ("type-source", "type_source"), ("Source_date", "source_date"), ("NB", "nb"),
   ("Title", "title"), ("Transaction type", "transaction_type"),
   ("Date_recorded", "date_recorded"), ("regulated-activity", "regulated_activity"),
   ("start-date", "start_date"), ("end-date", "end_date"),
   ("type-of-action", "type_of_action"), ("type of source", "type_of_source"),
   ("Exploration License", "exploration_license")]

/-- `clean_field_name` (`putData_enhanced.py` 74-101): static table, else
lower-case and replace spaces and hyphens with underscores. -/
def clean_field_name (field_name : String) : String :=
  match alookup clean_field_name_static field_name with
  | some v => v
  | none =>
    ⟨((pyLower field_name).data.map (fun c => if c = ' ' then '_' else c)).map
      (fun c => if c = '-' then '_' else c)⟩

/-- One iteration of the `clean_data_for_baserow` loop
(`putData_enhanced.py` 135-168), threading `(cleaned, relationships)`. -/
def enCleanEntry (acc : List (String × CleanVal) × List (String × List JValue))
    (kv : String × JValue) : List (String × CleanVal) × List (String × List JValue) :=
  let key := kv.1
  let value := kv.2
  if key ∈ en_skip_fields then acc
  else if pyStartsWith key "_nc_m2m_" then
    match value with
    | .arr xs => if xs.length > 0 then (acc.1, dinsert key xs acc.2) else acc
    | _ => acc
  else
    match value, alookupId value with
    | _, some idv => (acc.1, dinsert ("object_" ++ key) [idv] acc.2)
    | .null, _ => (dinsert (clean_field_name key) (.vs "") acc.1, acc.2)
    | .s sv, _ =>
      if is_date_field key then
        (dinsert (clean_field_name key)
          (.vs (if containsSub sv "T" then ⟨sv.data.takeWhile (fun c => c ≠ 'T')⟩ else sv))
          acc.1, acc.2)
      else (dinsert (clean_field_name key) (.vs sv) acc.1, acc.2)
    | .b x, _ => (dinsert (clean_field_name key) (.vb x) acc.1, acc.2)
    | .arr [], _ => acc
    | .obj [], _ => acc
    | v, _ => (dinsert (clean_field_name key) (.vs (pyStr v)) acc.1, acc.2)
where
  alookupId : JValue → Option JValue
    | .obj kvs => alookup kvs "Id"
    | _ => none

/-- `clean_data_for_baserow` (`putData_enhanced.py` 108-170). -/
def clean_data_for_baserow (data : Record) :
    List (String × CleanVal) × List (String × List JValue) :=
  data.foldl enCleanEntry ([], [])

/-- Is a JSON value `None` or the empty string (the guard opening both
`_transform_value` implementations)? -/
def isNullOrEmpty : JValue → Bool
  | .null => true
  | .s "" => true
  | _ => false

/-! ### Association-list lemmas -/

theorem alookup_dinsert_self {α : Type} (l : List (String × α)) (k : String) (v : α) :
    alookup (dinsert k v l) k = some v := by
  induction l with
  | nil => simp [dinsert, alookup]
  | cons hd tl ih =>
    obtain ⟨k', v'⟩ := hd
    by_cases h : k' = k
    · simp [dinsert, alookup, h]
    · simp [dinsert, alookup, h, ih]

theorem alookup_dinsert_ne {α : Type} (l : List (String × α)) (k k' : String) (v : α)
    (h : k ≠ k') : alookup (dinsert k v l) k' = alookup l k' := by
  induction l with
  | nil => simp [dinsert, alookup, h]
  | cons hd tl ih =>
    obtain ⟨k₀, v₀⟩ := hd
    by_cases h₀ : k₀ = k
    · subst h₀; simp [dinsert, alookup, h]
    · simp [dinsert, alookup, h₀, ih]

theorem klookup_kinsert_self (l : List (JKey × Nat)) (k : JKey) (v : Nat) :
    klookup (kinsert k v l) k = some v := by
  induction l with
  | nil => simp [kinsert, klookup]
  | cons hd tl ih =>
    obtain ⟨k', v'⟩ := hd
    by_cases h : k' = k
    · simp [kinsert, klookup, h]
    · simp [kinsert, klookup, h, ih]

theorem klookup_kinsert_isSome (l : List (JKey × Nat)) (k k' : JKey) (v : Nat)
    (h : klookup l k' ≠ none) : klookup (kinsert k v l) k' ≠ none := by
  induction l with
  | nil => simp [klookup] at h
  | cons hd tl ih =>
    obtain ⟨k₀, v₀⟩ := hd
    simp only [klookup] at h
    by_cases h₀ : k₀ = k
    · subst h₀
      simp only [kinsert, if_pos rfl, klookup]
      by_cases hk : k₀ = k'
      · simp [hk]
      · simp only [if_neg hk] at h ⊢; exact h
    · simp only [kinsert, if_neg h₀, klookup]
      by_cases hk : k₀ = k'
      · simp [hk]
      · simp only [if_neg hk] at h ⊢; exact ih h

theorem mem_dinsert {α : Type} (l : List (String × α)) (k : String) (v : α)
    (p : String × α) (h : p ∈ dinsert k v l) : p.2 = v ∨ p ∈ l := by
  induction l with
  | nil => simp [dinsert] at h; simp [h]
  | cons hd tl ih =>
    obtain ⟨k₀, v₀⟩ := hd
    by_cases h₀ : k₀ = k
    · simp [dinsert, h₀] at h
      rcases h with h | h
      · simp [h]
      · right; exact List.mem_cons_of_mem _ h
    · simp only [dinsert, if_neg h₀, List.mem_cons] at h
      rcases h with h | h
      · right; simp [h]
      · rcases ih h with h' | h'
        · exact Or.inl h'
        · exact Or.inr (List.mem_cons_of_mem _ h')

theorem mem_keys_dinsert {α : Type} (l : List (String × α)) (k k' : String) (v : α)
    (h : k' ∈ (dinsert k v l).map Prod.fst) : k' = k ∨ k' ∈ l.map Prod.fst := by
  induction l with
  | nil => simp [dinsert] at h; simp [h]
  | cons hd tl ih =>
    obtain ⟨k₀, v₀⟩ := hd
    by_cases h₀ : k₀ = k
    · subst h₀; simp [dinsert] at h
      rcases h with h | h
      · exact Or.inl h
      · exact Or.inr (by simp [h])
    · simp only [dinsert, if_neg h₀, List.map_cons, List.mem_cons] at h
      rcases h with h | h
      · exact Or.inr (by simp [h])
      · rcases ih h with h' | h'
        · exact Or.inl h'
        · exact Or.inr (by simp at h' ⊢; tauto)

/-- A fold ignores entries on which the step function is the identity. -/
theorem foldl_filter_eq {α β : Type} (f : β → α → β) (p : α → Bool)
    (h : ∀ acc a, p a = false → f acc a = acc) :
    ∀ (l : List α) (acc : β), (l.filter p).foldl f acc = l.foldl f acc := by
  intro l
  induction l with
  | nil => intro acc; rfl
  | cons a l ih =>
    intro acc
    cases hp : p a with
    | true => simp [List.filter_cons, hp, ih]
    | false => simp [List.filter_cons, hp, ih, h acc a hp]

/-! ### Relationship resolver lemmas -/

theorem mapRelStep_fst (st : ResolverState) (t : String)
    (acc : List (String × List Nat)) (kv : String × List JValue) :
    (mapRelStep st t acc kv).1 = st := by
  unfold mapRelStep
  dsimp only
  repeat' first | rfl | split

theorem mapRelStep_snd (st : ResolverState) (t : String)
    (acc : List (String × List Nat)) (kv : String × List JValue) :
    (mapRelStep st t acc kv).2 = none ∨ (mapRelStep st t acc kv).2 = some acc ∨
    ∃ key ids, ids ≠ [] ∧ (mapRelStep st t acc kv).2 = some (dinsert key ids acc) := by
  unfold mapRelStep
  dsimp only
  repeat' split
  all_goals first
    | exact Or.inl rfl
    | exact Or.inr (Or.inl rfl)
    | (rename_i hne
       exact Or.inr (Or.inr ⟨_, _, by simpa [List.isEmpty_iff] using hne, rfl⟩))

theorem mapRelGoS_fst (t : String) :
    ∀ (rels : List (String × List JValue)) (st : ResolverState)
      (acc : List (String × List Nat)), (mapRelGoS st t rels acc).1 = st := by
  intro rels
  induction rels with
  | nil => intro st acc; rfl
  | cons kv rest ih =>
    intro st acc
    unfold mapRelGoS
    rcases hstep : mapRelStep st t acc kv with ⟨st', r⟩
    have hfst : st' = st := by
      have h := mapRelStep_fst st t acc kv
      rw [hstep] at h
      exact h
    cases r with
    | none => exact hfst
    | some acc' => rw [hfst]; exact ih st acc'

theorem mapRelGoS_entries (t : String) :
    ∀ (rels : List (String × List JValue)) (st : ResolverState)
      (acc out : List (String × List Nat)),
      (∀ p ∈ acc, p.2 ≠ []) → (mapRelGoS st t rels acc).2 = some out →
      ∀ p ∈ out, p.2 ≠ [] := by
  intro rels
  induction rels with
  | nil =>
    intro st acc out hacc h p hp
    simp only [mapRelGoS, Option.some.injEq] at h
    exact hacc p (h ▸ hp)
  | cons kv rest ih =>
    intro st acc out hacc h p hp
    unfold mapRelGoS at h
    rcases hstep : mapRelStep st t acc kv with ⟨st', r⟩
    rw [hstep] at h
    rcases mapRelStep_snd st t acc kv with hc | hc | ⟨key, ids, hids, hc⟩ <;>
      rw [hstep] at hc <;> dsimp only at hc <;> subst hc
    · simp at h
    · exact ih st' acc out hacc h p hp
    · refine ih st' _ out ?_ h p hp
      intro q hq
      rcases mem_dinsert _ _ _ q hq with h' | h'
      · rw [h']; exact hids
      · exact hacc q h'

/-! ### Claim theorems -/

/-- C4: relationship resolution is idempotent and read-only — the
`map_relationships_to_baserow` loop returns the identifier registry and
schema cache unchanged, so resolving the same payload again immediately
afterwards yields the same destination link-field update. -/
theorem relationship_resolution_readonly_idempotent
    (rels : List (String × List JValue)) (t : String) (st : ResolverState) :
    (mapRelGoS st t rels []).1 = st ∧
    map_relationships_to_baserow rels t (mapRelGoS st t rels []).1 =
      map_relationships_to_baserow rels t st := by
  have h := mapRelGoS_fst t rels st []
  exact ⟨h, by rw [h]⟩

/-- C7: a record whose transformation yields no mappable plain fields
triggers no create call; the table's error counter increments by exactly
one, and the loop continues with the remaining records from that state. -/
theorem empty_record_is_counted_error
    (env : Nat → Option Nat) (tid : Nat) (t : String) (fm : List (String × Nat))
    (st : LoopState) (item : Record) (rest : List JValue)
    (h : transform_record_data item fm t st.table_schemas = []) :
    processRecord env tid t fm st item = { st with error_count := st.error_count + 1 } ∧
    runRecords env tid t fm st (JValue.obj item :: rest) =
      runRecords env tid t fm { st with error_count := st.error_count + 1 } rest := by
  have h1 : processRecord env tid t fm st item =
      { st with error_count := st.error_count + 1 } := by
    unfold processRecord
    simp [h]
  refine ⟨h1, ?_⟩
  simp only [runRecords, List.foldl_cons, processItem, h1]

/-- C7 witness: a record consisting only of the skipped `Id` metadata key. -/
theorem empty_record_is_counted_error_witness :
    transform_record_data [("Id", JValue.i 1)] [] "Location" [] = [] ∧
    processRecord (fun _ => some 9) 700 "Location" [] ⟨[], [], 0, 0, 0, []⟩
        [("Id", JValue.i 1)] =
      { (⟨[], [], 0, 0, 0, []⟩ : LoopState) with error_count := 0 + 1 } :=
  ⟨by decide,
   (empty_record_is_counted_error (fun _ => some 9) 700 "Location" []
      ⟨[], [], 0, 0, 0, []⟩ [("Id", JValue.i 1)] [] (by decide)).1⟩

/-- C8: with dry-run enabled, `import_table_data` issues no create, patch
or clear call, leaves the registry (and the whole state) unchanged,
returns `True`, and reports the full record count. -/
theorem dry_run_makes_no_mutations
    (env : Nat → Option Nat) (tm : List (String × Nat)) (json : JValue) (t : String)
    (ct : Bool) (st : LoopState) (items : List JValue) (tid : Nat)
    (hlk : alookup tm t = some tid) (h0 : tid ≠ 0) (hj : jsonItems json = some items) :
    import_table_data env tm json t true ct st = ⟨st, true, some items.length, none⟩ := by
  unfold import_table_data
  rw [hlk]
  simp [h0, hj]

/-- C8 witness: a dry run over a two-record table reports 2 and returns
the state untouched. -/
theorem dry_run_makes_no_mutations_witness :
    alookup [("Location", 700)] "Location" = some 700 ∧ (700 : Nat) ≠ 0 ∧
    jsonItems (JValue.arr [JValue.obj [("Id", JValue.i 1)], JValue.obj []]) =
      some [JValue.obj [("Id", JValue.i 1)], JValue.obj []] ∧
    import_table_data (fun _ => some 9) [("Location", 700)]
        (JValue.arr [JValue.obj [("Id", JValue.i 1)], JValue.obj []]) "Location"
        true true ⟨[], [], 0, 0, 0, []⟩ =
      ⟨⟨[], [], 0, 0, 0, []⟩, true,
        some [JValue.obj [("Id", JValue.i 1)], JValue.obj []].length, none⟩ :=
  ⟨by decide, by decide, rfl,
   dry_run_makes_no_mutations (fun _ => some 9) [("Location", 700)] _ "Location" true
     ⟨[], [], 0, 0, 0, []⟩ _ 700 (by decide) (by decide) rfl⟩

/-- C2: resolved link-field updates are emitted only with a non-empty id
list (for every payload, table and resolver state); and for any processed
record — its id registered first when truthy — the orchestrator patches
exactly when the resolved dict is non-empty: when every reference fails to
resolve the record is still created and success-counted with no patch
call. -/
theorem best_effort_relationship_resolution
    (env : Nat → Option Nat) (tid : Nat) (t : String) (fm : List (String × Nat))
    (st : LoopState) (item : Record) (out : List (String × List Nat)) (D : Nat)
    (hres : map_relationships_to_baserow (extract_relationships item) t
      ⟨registryAfterCreate st.id_mappings t item D, st.table_schemas⟩ = some out)
    (htk : pyTruthy ((alookup item "Id").getD .null) = true →
      toKey ((alookup item "Id").getD .null) ≠ none)
    (hclean : transform_record_data item fm t st.table_schemas ≠ [])
    (hcreate : env st.next_create = some D) :
    (∀ (rels : List (String × List JValue)) (t' : String) (rst : ResolverState)
      (out' : List (String × List Nat)),
      map_relationships_to_baserow rels t' rst = some out' → ∀ p ∈ out', p.2 ≠ []) ∧
    (out = [] → processRecord env tid t fm st item =
      { st with
        calls := st.calls ++ [.createRow tid (transform_record_data item fm t st.table_schemas)],
        next_create := st.next_create + 1,
        id_mappings := registryAfterCreate st.id_mappings t item D,
        success_count := st.success_count + 1 }) ∧
    (out ≠ [] → processRecord env tid t fm st item =
      { st with
        calls := st.calls ++ [.createRow tid (transform_record_data item fm t st.table_schemas),
          .updateRow tid D out],
        next_create := st.next_create + 1,
        id_mappings := registryAfterCreate st.id_mappings t item D,
        success_count := st.success_count + 1 }) := by
  have hentries : ∀ (rels : List (String × List JValue)) (t' : String)
      (rst : ResolverState) (out' : List (String × List Nat)),
      map_relationships_to_baserow rels t' rst = some out' → ∀ p ∈ out', p.2 ≠ [] :=
    fun rels t' rst out' h => mapRelGoS_entries t' rels rst [] out' (by simp) h
  have hne : (transform_record_data item fm t st.table_schemas).isEmpty = false := by
    cases hc : transform_record_data item fm t st.table_schemas with
    | nil => exact absurd hc hclean
    | cons a l => rfl
  -- the record-processing step up to (and including) id registration
  have hstate : processRecord env tid t fm st item =
      afterCreate tid t (extract_relationships item)
        { st with
          calls := st.calls ++ [.createRow tid (transform_record_data item fm t st.table_schemas)],
          next_create := st.next_create + 1,
          id_mappings := registryAfterCreate st.id_mappings t item D } D := by
    unfold processRecord
    dsimp only
    simp only [hne, Bool.false_eq_true, if_false, hcreate]
    cases halk : alookup item "Id" with
    | none =>
      have hra : registryAfterCreate st.id_mappings t item D = st.id_mappings := by
        unfold registryAfterCreate
        simp [halk, pyTruthy]
      simp only [halk, Option.getD_none, hra]
      have hT : pyTruthy JValue.null = false := rfl
      simp only [hT, Bool.false_eq_true, if_false]
    | some S =>
      simp only [halk, Option.getD_some]
      by_cases htr : pyTruthy S = true
      · cases hk : toKey S with
        | none =>
          exact absurd hk (by simpa [halk, htr] using htk (by simp [halk, htr]))
        | some sk =>
          have hra : registryAfterCreate st.id_mappings t item D =
              registerId st.id_mappings t sk D := by
            unfold registryAfterCreate
            simp [halk, htr, hk]
          simp only [htr, if_true, hk, hra]
      · simp only [Bool.not_eq_true] at htr
        have hra : registryAfterCreate st.id_mappings t item D = st.id_mappings := by
          unfold registryAfterCreate
          simp [halk, htr]
        simp only [htr, Bool.false_eq_true, if_false, hra]
  refine ⟨hentries, ?_, ?_⟩
  · intro hout
    subst hout
    rw [hstate]
    unfold afterCreate
    cases hrels : (extract_relationships item).isEmpty
    · simp only [Bool.false_eq_true, if_false]
      rw [show map_relationships_to_baserow (extract_relationships item) t
          ⟨registryAfterCreate st.id_mappings t item D, st.table_schemas⟩ = some []
        from hres]
      simp
    · simp
  · intro hout
    have houtne : out.isEmpty = false := by
      cases hc : out with
      | nil => exact absurd hc hout
      | cons a l => rfl
    have hrels : (extract_relationships item).isEmpty = false := by
      cases hc : extract_relationships item with
      | nil =>
        rw [hc] at hres
        simp only [map_relationships_to_baserow, mapRelGoS, Option.some.injEq] at hres
        exact absurd hres.symm hout
      | cons a l => rfl
    rw [hstate]
    unfold afterCreate
    simp only [hrels, Bool.false_eq_true, if_false]
    rw [show map_relationships_to_baserow (extract_relationships item) t
        ⟨registryAfterCreate st.id_mappings t item D, st.table_schemas⟩ = some out
      from hres]
    simp [houtne, List.append_assoc]

/-- C2 witness: the scenario-3 shape — a truthy-id Infrastructure record
referencing a never-imported Location.  Its id is registered, resolution
runs against the real routing table and schema, finds no registry entry
for the target, and the record is created with no patch call. -/
theorem best_effort_relationship_resolution_witness :
    map_relationships_to_baserow
        (extract_relationships
          [("Id", JValue.i 10), ("infrastructure_name", JValue.s "Pipeline"),
           ("_nc_m2m_infrastructure_locations",
            JValue.arr [JValue.obj [("location_id", JValue.i 1)]])])
        "Infrastructure"
        ⟨registryAfterCreate [] "Infrastructure"
          [("Id", JValue.i 10), ("infrastructure_name", JValue.s "Pipeline"),
           ("_nc_m2m_infrastructure_locations",
            JValue.arr [JValue.obj [("location_id", JValue.i 1)]])] 42,
         [("Infrastructure",
           ⟨708, "Infrastructure",
            [⟨1, "Name", "text", true, false, none⟩,
             ⟨2, "linked_location", "link_row", false, false, some 703⟩]⟩)]⟩ =
      some [] ∧
    (pyTruthy ((alookup
        [("Id", JValue.i 10), ("infrastructure_name", JValue.s "Pipeline"),
         ("_nc_m2m_infrastructure_locations",
          JValue.arr [JValue.obj [("location_id", JValue.i 1)]])] "Id").getD .null) =
        true →
      toKey ((alookup
        [("Id", JValue.i 10), ("infrastructure_name", JValue.s "Pipeline"),
         ("_nc_m2m_infrastructure_locations",
          JValue.arr [JValue.obj [("location_id", JValue.i 1)]])] "Id").getD .null) ≠
        none) ∧
    transform_record_data
        [("Id", JValue.i 10), ("infrastructure_name", JValue.s "Pipeline"),
         ("_nc_m2m_infrastructure_locations",
          JValue.arr [JValue.obj [("location_id", JValue.i 1)]])]
        [("infrastructure_name", 1)] "Infrastructure"
        [("Infrastructure",
          ⟨708, "Infrastructure",
           [⟨1, "Name", "text", true, false, none⟩,
            ⟨2, "linked_location", "link_row", false, false, some 703⟩]⟩)] ≠ [] ∧
    processRecord (fun _ => some 42) 708 "Infrastructure" [("infrastructure_name", 1)]
        ⟨[],
         [("Infrastructure",
           ⟨708, "Infrastructure",
            [⟨1, "Name", "text", true, false, none⟩,
             ⟨2, "linked_location", "link_row", false, false, some 703⟩]⟩)],
         0, 0, 0, []⟩
        [("Id", JValue.i 10), ("infrastructure_name", JValue.s "Pipeline"),
         ("_nc_m2m_infrastructure_locations",
          JValue.arr [JValue.obj [("location_id", JValue.i 1)]])] =
      { (⟨[],
          [("Infrastructure",
            ⟨708, "Infrastructure",
             [⟨1, "Name", "text", true, false, none⟩,
              ⟨2, "linked_location", "link_row", false, false, some 703⟩]⟩)],
          0, 0, 0, []⟩ : LoopState) with
        calls := [] ++ [.createRow 708 (transform_record_data
          [("Id", JValue.i 10), ("infrastructure_name", JValue.s "Pipeline"),
           ("_nc_m2m_infrastructure_locations",
            JValue.arr [JValue.obj [("location_id", JValue.i 1)]])]
          [("infrastructure_name", 1)] "Infrastructure"
          [("Infrastructure",
            ⟨708, "Infrastructure",
             [⟨1, "Name", "text", true, false, none⟩,
              ⟨2, "linked_location", "link_row", false, false, some 703⟩]⟩)])],
        next_create := 0 + 1,
        id_mappings := registryAfterCreate [] "Infrastructure"
          [("Id", JValue.i 10), ("infrastructure_name", JValue.s "Pipeline"),
           ("_nc_m2m_infrastructure_locations",
            JValue.arr [JValue.obj [("location_id", JValue.i 1)]])] 42,
        success_count := 0 + 1 } :=
  ⟨by decide, by decide, by decide,
   (best_effort_relationship_resolution (fun _ => some 42) 708 "Infrastructure"
      [("infrastructure_name", 1)]
      ⟨[],
       [("Infrastructure",
         ⟨708, "Infrastructure",
          [⟨1, "Name", "text", true, false, none⟩,
           ⟨2, "linked_location", "link_row", false, false, some 703⟩]⟩)],
       0, 0, 0, []⟩
      [("Id", JValue.i 10), ("infrastructure_name", JValue.s "Pipeline"),
       ("_nc_m2m_infrastructure_locations",
        JValue.arr [JValue.obj [("location_id", JValue.i 1)]])]
      [] 42 (by decide) (by decide) (by decide) (by decide)).2.1 rfl⟩

theorem transform_value_of_nullOrEmpty (v : JValue) (name : String)
    (h : isNullOrEmpty v = true) : transform_value v name = none := by
  cases v with
  | null => rfl
  | s str =>
    cases hstr : str with
    | mk l =>
      cases l with
      | nil => rfl
      | cons c cs => subst hstr; simp [isNullOrEmpty, String.ext_iff] at h
  | b x => simp [isNullOrEmpty] at h
  | i n => simp [isNullOrEmpty] at h
  | arr xs => simp [isNullOrEmpty] at h
  | obj kvs => simp [isNullOrEmpty] at h

theorem dtTransformValue_of_nullOrEmpty (v : JValue) (fi : Option FieldInfo)
    (h : isNullOrEmpty v = true) : dtTransformValue v fi = none := by
  cases v with
  | null => rfl
  | s str =>
    cases hstr : str with
    | mk l =>
      cases l with
      | nil => rfl
      | cons c cs => subst hstr; simp [isNullOrEmpty, String.ext_iff] at h
  | b x => simp [isNullOrEmpty] at h
  | i n => simp [isNullOrEmpty] at h
  | arr xs => simp [isNullOrEmpty] at h
  | obj kvs => simp [isNullOrEmpty] at h

theorem transformEntry_of_transform_none (fm : List (String × Nat)) (t : String)
    (ts : List (String × TableSchema)) (acc : List (String × CleanVal))
    (kv : String × JValue) (h : transform_value kv.2 kv.1 = none) :
    transformEntry fm t ts acc kv = acc := by
  unfold transformEntry
  dsimp only
  simp only [h]
  repeat' first | rfl | split

/-- C6: the source-system metadata keys are dropped: the orchestrator's
transform ignores `Id`/`CreatedAt`/`UpdatedAt` entries, and the enhanced
importer's cleaner ignores its full fixed skip set (row id, timestamps,
and the known computed/count fields) — removing those entries from a
record changes neither function's output. -/
theorem metadata_keys_never_imported
    (record : Record) (fm : List (String × Nat)) (t : String)
    (ts : List (String × TableSchema)) :
    transform_record_data
        (record.filter fun kv =>
          !(kv.1 = "CreatedAt" || kv.1 = "UpdatedAt" || kv.1 = "Id")) fm t ts =
      transform_record_data record fm t ts ∧
    clean_data_for_baserow (record.filter fun kv => !(decide (kv.1 ∈ en_skip_fields))) =
      clean_data_for_baserow record := by
  constructor
  · exact foldl_filter_eq _ _
      (fun acc kv hp => by
        have hk : kv.1 = "CreatedAt" ∨ kv.1 = "UpdatedAt" ∨ kv.1 = "Id" := by
          have h' := hp
          simp at h'
          tauto
        unfold transformEntry
        rcases hk with h | h | h <;> simp [h]) record []
  · exact foldl_filter_eq _ _
      (fun acc kv hp => by
        have hk : kv.1 ∈ en_skip_fields := by simpa using hp
        unfold enCleanEntry
        simp [hk]) record ([], [])

/-- C9: mapped fields whose value is `None` or the empty string are
omitted from the create payload — removing such entries changes neither
the orchestrator transform nor the component transformer's output — and
in the component transformer any mapped entry whose value transforms to
`None` contributes nothing. -/
theorem null_and_empty_values_omitted
    (record : Record) (fm : List (String × Nat)) (t : String)
    (ts : List (String × TableSchema)) (schema : TableSchema) :
    transform_record_data
        (record.filter fun kv => !(!pyStartsWith kv.1 "_nc_m2m_" && isNullOrEmpty kv.2))
        fm t ts =
      transform_record_data record fm t ts ∧
    dtTransformRecord
        (record.filter fun kv => !(!pyStartsWith kv.1 "_nc_m2m_" && isNullOrEmpty kv.2))
        fm schema =
      dtTransformRecord record fm schema ∧
    (∀ (acc : List (String × CleanVal) × List (String × JValue)) (k : String) (v : JValue)
      (fid : Nat), pyStartsWith k "_nc_m2m_" = false → alookup fm k = some fid →
      dtTransformValue v (dtGetFieldInfoById schema fid) = none →
      dtTransformEntry fm schema acc (k, v) = acc) := by
  refine ⟨?_, ?_, ?_⟩
  · exact foldl_filter_eq _ _
      (fun acc kv hp => by
        have hk : pyStartsWith kv.1 "_nc_m2m_" = false ∧ isNullOrEmpty kv.2 = true := by
          simpa using hp
        exact transformEntry_of_transform_none fm t ts acc kv
          (transform_value_of_nullOrEmpty kv.2 kv.1 hk.2)) record []
  · exact foldl_filter_eq _ _
      (fun acc kv hp => by
        have hk : pyStartsWith kv.1 "_nc_m2m_" = false ∧ isNullOrEmpty kv.2 = true := by
          simpa using hp
        unfold dtTransformEntry
        simp only [hk.1, Bool.false_eq_true, if_false]
        cases halk : alookup fm kv.1 with
        | none => rfl
        | some fid =>
          simp [dtTransformValue_of_nullOrEmpty kv.2 _ hk.2]) record ([], [])
  · intro acc k v fid hm2m halk htrans
    unfold dtTransformEntry
    simp [hm2m, halk, htrans]

/-- C9 witness: a mapped `None`-valued field contributes nothing to the
component transformer's output. -/
theorem null_and_empty_values_omitted_witness :
    pyStartsWith "a" "_nc_m2m_" = false ∧
    alookup [("a", 1), ("b", 2)] "a" = some 1 ∧
    dtTransformValue JValue.null (dtGetFieldInfoById ⟨703, "Location", []⟩ 1) = none ∧
    dtTransformEntry [("a", 1), ("b", 2)] ⟨703, "Location", []⟩ ([], [])
      ("a", JValue.null) = ([], []) :=
  ⟨by decide, by decide, by decide,
   (null_and_empty_values_omitted [("a", JValue.null)] [("a", 1), ("b", 2)] "Location" []
      ⟨703, "Location", []⟩).2.2 ([], []) "a" JValue.null 1
     (by decide) (by decide) (by decide)⟩

/-- The non-date else-path of `_transform_value` (`putData.py` 466-471):
booleans survive, everything else is stringified. -/
def defaultCoerce (v : JValue) : CleanVal :=
  match v with
  | .b x => .vb x
  | w => .vs (pyStr w)

/-- C10: inside the orchestrator's plain-field transform, the date-name
heuristic alone decides date treatment — a date-named field is forced
through `_normalize_date` (no schema type is consulted), so an
unnormalizable value in such a field contributes nothing to the record;
a field without a date-like name is never date-normalized there. -/
theorem date_name_heuristic_decides (v : JValue) (name : String)
    (hv : isNullOrEmpty v = false) :
    (is_date_field name = true → transform_value v name = (normalize_date v).map .vs) ∧
    (is_date_field name = false → transform_value v name = some (defaultCoerce v)) ∧
    (∀ (fm : List (String × Nat)) (t : String) (ts : List (String × TableSchema))
        (acc : List (String × CleanVal)),
      is_date_field name = true → normalize_date v = none →
      transformEntry fm t ts acc (name, v) = acc) := by
  refine ⟨?_, ?_, ?_⟩
  · intro hd
    unfold transform_value
    split
    · simp [isNullOrEmpty] at hv
    · simp [isNullOrEmpty] at hv
    · simp [hd]
  · intro hd
    unfold transform_value
    split
    · simp [isNullOrEmpty] at hv
    · simp [isNullOrEmpty] at hv
    · simp only [hd, Bool.false_eq_true, if_false, defaultCoerce]
      split <;> rfl
  · intro fm t ts acc hd hnorm
    apply transformEntry_of_transform_none
    show transform_value v name = none
    unfold transform_value
    split
    · rfl
    · rfl
    · simp [hd, hnorm]

/-- C10 witness: `"not a date"` in the date-named field `start-date` is
dropped although the value is a perfectly good string. -/
theorem date_name_heuristic_decides_witness :
    isNullOrEmpty (JValue.s "not a date") = false ∧
    is_date_field "start-date" = true ∧
    normalize_date (JValue.s "not a date") = none ∧
    transformEntry [("start-date", 7)] "Role" [] [] ("start-date", JValue.s "not a date") = [] :=
  ⟨by decide, by decide, by decide,
   (date_name_heuristic_decides (JValue.s "not a date") "start-date" (by decide)).2.2
     [("start-date", 7)] "Role" [] [] (by decide) (by decide)⟩

/-! ### Decimal rendering is injective (for `fieldKey`) -/

def digitsVal (cs : List Char) : Nat := cs.foldl (fun a c => a * 10 + (c.toNat - 48)) 0

theorem digitChar_toNat (d : Nat) (h : d < 10) : (Nat.digitChar d).toNat = d + 48 := by
  interval_cases d <;> rfl

theorem digitsVal_append_digit (l : List Char) (c : Char) :
    digitsVal (l ++ [c]) = 10 * digitsVal l + (c.toNat - 48) := by
  simp [digitsVal, List.foldl_append]
  omega

theorem natDigitsAux_val : ∀ fuel n, n < fuel → digitsVal (natDigitsAux fuel n) = n := by
  intro fuel
  induction fuel with
  | zero => intro n h; omega
  | succ f ih =>
    intro n h
    unfold natDigitsAux
    by_cases h10 : n < 10
    · simp only [if_pos h10]
      simp [digitsVal, digitChar_toNat n h10]
    · simp only [if_neg h10]
      rw [digitsVal_append_digit]
      have hdiv : n / 10 < f := by
        have hlt : n / 10 < n := Nat.div_lt_self (by omega) (by omega)
        omega
      rw [ih (n / 10) hdiv, digitChar_toNat (n % 10) (Nat.mod_lt _ (by omega))]
      omega

theorem natDec_inj (a b : Nat) (h : natDec a = natDec b) : a = b := by
  have hdata : natDigitsAux (a + 1) a = natDigitsAux (b + 1) b :=
    congrArg String.data h
  have ha := natDigitsAux_val (a + 1) a (by omega)
  have hb := natDigitsAux_val (b + 1) b (by omega)
  rw [← ha, ← hb, hdata]

theorem fieldKey_inj (a b : Nat) (h : fieldKey a = fieldKey b) : a = b := by
  apply natDec_inj
  apply String.ext
  have hdata := congrArg String.data h
  simp only [fieldKey, String.data_append] at hdata
  exact List.append_cancel_left hdata

/-- Each loop iteration of `transform_record_data` either leaves the dict
alone or inserts under a key `field_{m}` where, when the schema has no
duplicate field ids, no `link_row` field has id `m`. -/
theorem transformEntry_link_free (fm : List (String × Nat)) (t : String)
    (ts : List (String × TableSchema)) (acc : List (String × CleanVal))
    (kv : String × JValue) (schema : TableSchema)
    (hschema : alookup ts t = some schema)
    (hnodup : (schema.fields.map FieldInfo.id).Nodup) :
    transformEntry fm t ts acc kv = acc ∨
    ∃ m tv, transformEntry fm t ts acc kv = dinsert (fieldKey m) tv acc ∧
      ∀ f ∈ schema.fields, f.type = "link_row" → f.id ≠ m := by
  have huniq : ∀ f g, f ∈ schema.fields → g ∈ schema.fields → f.id = g.id → f = g :=
    fun _ _ hf hg h => List.inj_on_of_nodup_map hnodup hf hg h
  unfold transformEntry
  dsimp only
  split
  · exact Or.inl rfl
  · cases halk : alookup fm kv.1 with
    | some fid =>
      rw [hschema]
      dsimp only
      cases hfind : schema.fields.find? (fun fl => fl.id = fid) with
      | some finfo =>
        have hmem : finfo ∈ schema.fields := List.mem_of_find?_eq_some hfind
        have hid : finfo.id = fid := by
          have := List.find?_some hfind
          simpa using this
        by_cases hl : finfo.type = "link_row"
        · simp only [hl, if_pos rfl]
          exact Or.inl rfl
        · simp only [if_neg hl]
          cases htv : transform_value kv.2 kv.1 with
          | none => exact Or.inl rfl
          | some tv =>
            refine Or.inr ⟨fid, tv, rfl, ?_⟩
            intro f hf hft he
            exact hl (huniq finfo f hmem hf (by rw [hid, he]) ▸ hft)
      | none =>
        cases htv : transform_value kv.2 kv.1 with
        | none => exact Or.inl rfl
        | some tv =>
          refine Or.inr ⟨fid, tv, rfl, ?_⟩
          intro f hf hft he
          have := List.find?_eq_none.mp hfind f hf
          simp [he] at this
    | none =>
      rw [hschema]
      dsimp only
      cases hfind : getFieldByName schema kv.1 with
      | some finfo =>
        have hmem : finfo ∈ schema.fields := List.mem_of_find?_eq_some hfind
        by_cases hl : finfo.type = "link_row"
        · simp only [hl, if_pos rfl]
          exact Or.inl rfl
        · simp only [if_neg hl]
          cases htv : transform_value kv.2 kv.1 with
          | none => exact Or.inl rfl
          | some tv =>
            refine Or.inr ⟨finfo.id, tv, rfl, ?_⟩
            intro f hf hft he
            exact hl (huniq finfo f hmem hf he.symm ▸ hft)
      | none => exact Or.inl rfl

/-- C5: link fields are never written by the plain-field path — for a
schema without duplicate field ids, no `link_row` field's id ever appears
among the keys of the cleaned data, whether the source field was
statically mapped or matched by the automatic name-based fallback. -/
theorem link_fields_never_plain_written
    (record : Record) (fm : List (String × Nat)) (t : String)
    (ts : List (String × TableSchema)) (schema : TableSchema) (f : FieldInfo)
    (hschema : alookup ts t = some schema)
    (hnodup : (schema.fields.map FieldInfo.id).Nodup)
    (hf : f ∈ schema.fields) (hlink : f.type = "link_row") :
    fieldKey f.id ∉ (transform_record_data record fm t ts).map Prod.fst := by
  suffices h : ∀ acc : List (String × CleanVal), fieldKey f.id ∉ acc.map Prod.fst →
      fieldKey f.id ∉ (record.foldl (transformEntry fm t ts) acc).map Prod.fst by
    exact h [] (by simp)
  induction record with
  | nil => intro acc hacc; simpa using hacc
  | cons kv rest ih =>
    intro acc hacc
    simp only [List.foldl_cons]
    apply ih
    rcases transformEntry_link_free fm t ts acc kv schema hschema hnodup with
      hca | ⟨m, tv, hca, hm⟩
    · rw [hca]; exact hacc
    · rw [hca]
      intro hmem
      rcases mem_keys_dinsert _ _ _ _ hmem with he | he
      · exact hm f hf hlink (fieldKey_inj _ _ he)
      · exact hacc he

/-- C5 witness: with a schema holding a text field and a `link_row` field,
a record writing a mapped text field and name-matching the link field
produces no entry under the link field's key. -/
theorem link_fields_never_plain_written_witness :
    alookup [("Infrastructure",
        (⟨708, "Infrastructure",
          [⟨1, "Name", "text", true, false, none⟩,
           ⟨2, "linked_location", "link_row", false, false, some 703⟩]⟩ : TableSchema))]
      "Infrastructure" = some
        ⟨708, "Infrastructure",
          [⟨1, "Name", "text", true, false, none⟩,
           ⟨2, "linked_location", "link_row", false, false, some 703⟩]⟩ ∧
    (([⟨1, "Name", "text", true, false, none⟩,
       ⟨2, "linked_location", "link_row", false, false, some 703⟩] :
        List FieldInfo).map FieldInfo.id).Nodup ∧
    fieldKey 2 ∉ (transform_record_data
      [("infrastructure_name", JValue.s "Pipeline"),
       ("linked_location", JValue.i 3)]
      [("infrastructure_name", 1)] "Infrastructure"
      [("Infrastructure",
        ⟨708, "Infrastructure",
          [⟨1, "Name", "text", true, false, none⟩,
           ⟨2, "linked_location", "link_row", false, false, some 703⟩]⟩)]).map Prod.fst :=
  ⟨by decide, by decide,
   link_fields_never_plain_written
     [("infrastructure_name", JValue.s "Pipeline"), ("linked_location", JValue.i 3)]
     [("infrastructure_name", 1)] "Infrastructure"
     [("Infrastructure",
       ⟨708, "Infrastructure",
         [⟨1, "Name", "text", true, false, none⟩,
          ⟨2, "linked_location", "link_row", false, false, some 703⟩]⟩)]
     ⟨708, "Infrastructure",
       [⟨1, "Name", "text", true, false, none⟩,
        ⟨2, "linked_location", "link_row", false, false, some 703⟩]⟩
     ⟨2, "linked_location", "link_row", false, false, some 703⟩
     (by decide) (by decide) (by decide) (by decide)⟩

/-! ### String-shape lemmas for date normalization -/

theorem listContainsSub_single_false (c : Char) :
    ∀ cs : List Char, (∀ x ∈ cs, x ≠ c) → listContainsSub [c] cs = false := by
  intro cs
  induction cs with
  | nil => intro _; rfl
  | cons x rest ih =>
    intro h
    have hx : x ≠ c := h x (by simp)
    simp only [listContainsSub, List.isPrefixOf, Bool.or_eq_false_iff]
    constructor
    · simp [Ne.symm hx]
    · exact ih (fun y hy => h y (by simp [hy]))

theorem listContainsSub_single_true (c : Char) :
    ∀ cs : List Char, c ∈ cs → listContainsSub [c] cs = true := by
  intro cs
  induction cs with
  | nil => intro h; simp at h
  | cons x rest ih =>
    intro h
    simp only [listContainsSub, List.isPrefixOf, Bool.or_eq_true]
    rcases List.mem_cons.mp h with he | hm
    · left; simp [he]
    · right; exact ih hm

theorem strLength (s : String) : s.length = s.data.length := rfl

theorem takeWhile_append_head (c : Char) :
    ∀ (pre rest : List Char), (∀ x ∈ pre, x ≠ c) →
    (pre ++ c :: rest).takeWhile (fun x => x ≠ c) = pre := by
  intro pre
  induction pre with
  | nil => intro rest _; simp [List.takeWhile_cons]
  | cons x xs ih =>
    intro rest h
    have hx : (decide ¬(x = c)) = true := by
      simp only [decide_eq_true_eq]
      exact h x (by simp)
    simp only [List.cons_append, List.takeWhile_cons, hx, if_true]
    exact congrArg (x :: ·) (ih rest (fun y hy => h y (by simp [hy])))

theorem isDigit_ne_T (c : Char) (h : c.isDigit = true) : c ≠ 'T' := by
  intro he; subst he; exact absurd h (by decide)

theorem isDigit_ne_dash (c : Char) (h : c.isDigit = true) : c ≠ '-' := by
  intro he; subst he; exact absurd h (by decide)

theorem dateShape_facts (cs : List Char) (h : dateShape cs = true) :
    cs.length = 10 ∧ (∀ x ∈ cs, x ≠ 'T') ∧
    (cs.filter (fun x => x = '-')).length = 2 := by
  match cs, h with
  | [c1, c2, c3, c4, d1, c5, c6, d2, c7, c8], h =>
    simp only [dateShape, Bool.and_eq_true, decide_eq_true_eq] at h
    obtain ⟨⟨⟨⟨⟨⟨⟨⟨⟨h1, h2⟩, h3⟩, h4⟩, hd1⟩, h5⟩, h6⟩, hd2⟩, h7⟩, h8⟩ := h
    subst hd1
    subst hd2
    refine ⟨rfl, ?_, ?_⟩
    · intro x hx
      simp only [List.mem_cons, List.not_mem_nil, or_false] at hx
      rcases hx with rfl | rfl | rfl | rfl | rfl | rfl | rfl | rfl | rfl | rfl
      exacts [isDigit_ne_T _ h1, isDigit_ne_T _ h2, isDigit_ne_T _ h3, isDigit_ne_T _ h4,
        by decide, isDigit_ne_T _ h5, isDigit_ne_T _ h6, by decide,
        isDigit_ne_T _ h7, isDigit_ne_T _ h8]
    · have hnd : ∀ c : Char, c.isDigit = true → (decide (c = '-')) = false := fun c hc =>
        decide_eq_false (isDigit_ne_dash c hc)
      simp [List.filter_cons, hnd _ h1, hnd _ h2, hnd _ h3, hnd _ h4, hnd _ h5,
        hnd _ h6, hnd _ h7, hnd _ h8]

theorem matchISO_decomp (s : String) (h : matchISO s = true) :
    ∃ pre rest, s.data = pre ++ 'T' :: rest ∧ pre.length = 10 ∧ dateShape pre = true := by
  unfold matchISO at h
  simp only [Bool.and_eq_true, decide_eq_true_eq] at h
  obtain ⟨h1, h2⟩ := h
  obtain ⟨hlt, hget⟩ := List.getElem?_eq_some_iff.mp h2
  refine ⟨s.data.take 10, s.data.drop 11, ?_, ?_, h1⟩
  · conv_lhs => rw [← List.take_append_drop 10 s.data]
    rw [List.drop_eq_getElem_cons hlt, hget]
  · simp only [List.length_take]
    omega

theorem matchYear_facts (s : String) (h : matchYear s = true) :
    s.data.length = 4 ∧ ∀ x ∈ s.data, x ≠ 'T' := by
  unfold matchYear at h
  simp only [Bool.and_eq_true, decide_eq_true_eq, List.all_eq_true] at h
  exact ⟨h.1, fun x hx => isDigit_ne_T x (h.2 x hx)⟩

/-- C3 counterexample: the orchestrator's `_normalize_date` maps the
string `"T"` — which matches none of the three accepted shapes — to the
empty string instead of `None`. -/
theorem date_normalization_contract_counterexample :
    normalize_date (JValue.s "T") = some "" ∧
    matchYear "T" = false ∧ matchISO "T" = false ∧ matchDateOnly "T" = false := by
  refine ⟨?_, by decide, by decide, by decide⟩
  decide

/-- C3 (amended): on the stripped string form of a truthy value, both
`_normalize_date` implementations realise the three accepted shapes
(`^\d{4}$` year expansion, `^\d{4}-\d{2}-\d{2}T` truncation to ten
characters, `^\d{4}-\d{2}-\d{2}$` pass-through); on a string matching no
shape the component transformer yields `None`, while the orchestrator's
version may instead truncate at a `'T'` or pass a length-10 two-dash
string through. -/
theorem date_normalization_contract (v : JValue) (hv : pyTruthy v = true) :
    (matchYear (pyStrip (pyStr v)) = true →
      dtNormalizeDate v = some (pyStrip (pyStr v) ++ "-01-01") ∧
      normalize_date v = some (pyStrip (pyStr v) ++ "-01-01")) ∧
    (matchISO (pyStrip (pyStr v)) = true →
      dtNormalizeDate v = some ⟨(pyStrip (pyStr v)).data.take 10⟩ ∧
      normalize_date v = some ⟨(pyStrip (pyStr v)).data.take 10⟩) ∧
    (matchDateOnly (pyStrip (pyStr v)) = true →
      dtNormalizeDate v = some (pyStrip (pyStr v)) ∧
      normalize_date v = some (pyStrip (pyStr v))) ∧
    (matchYear (pyStrip (pyStr v)) = false → matchISO (pyStrip (pyStr v)) = false →
      matchDateOnly (pyStrip (pyStr v)) = false → dtNormalizeDate v = none) := by
  have hT : ∀ s : String, (∀ x ∈ s.data, x ≠ 'T') → containsSub s "T" = false := by
    intro s hs
    unfold containsSub
    exact listContainsSub_single_false 'T' s.data hs
  refine ⟨?_, ?_, ?_, ?_⟩
  · intro hm
    obtain ⟨hlen, hnoT⟩ := matchYear_facts _ hm
    constructor
    · unfold dtNormalizeDate
      simp [hv, hm]
    · unfold normalize_date
      simp only [hv, Bool.not_true, Bool.false_eq_true, if_false]
      rw [hT _ hnoT]
      have hl4 : (pyStrip (pyStr v)).length = 4 := by rw [strLength]; exact hlen
      have hdig : pyIsDigit (pyStrip (pyStr v)) = true := by
        unfold matchYear at hm
        simp only [Bool.and_eq_true, decide_eq_true_eq] at hm
        unfold pyIsDigit
        simp only [Bool.and_eq_true]
        refine ⟨?_, hm.2⟩
        cases hc : (pyStrip (pyStr v)).data with
        | nil => rw [hc] at hlen; simp at hlen
        | cons a l => simp
      simp [hl4, hdig]
  · intro hm
    obtain ⟨pre, rest, hdecomp, hlen, hshape⟩ := matchISO_decomp _ hm
    obtain ⟨_, hnoT, _⟩ := dateShape_facts pre hshape
    have htake : (pyStrip (pyStr v)).data.take 10 = pre := by
      rw [hdecomp, ← hlen, List.take_left]
    have hlentot : (pyStrip (pyStr v)).data.length = 11 + rest.length := by
      rw [hdecomp]
      simp [hlen]
      omega
    constructor
    · unfold dtNormalizeDate
      have hyear : matchYear (pyStrip (pyStr v)) = false := by
        unfold matchYear
        have hne : ¬((pyStrip (pyStr v)).length = 4) := by
          rw [strLength]
          omega
        simp [hne]
      simp [hv, hm, hyear, htake]
    · unfold normalize_date
      simp only [hv, Bool.not_true, Bool.false_eq_true, if_false]
      have hcT : containsSub (pyStrip (pyStr v)) "T" = true := by
        unfold containsSub
        apply listContainsSub_single_true
        rw [hdecomp]
        simp
      rw [hcT]
      simp only [if_true]
      have hx : (pyStrip (pyStr v)).data.takeWhile (fun c => c ≠ 'T') =
          (pyStrip (pyStr v)).data.take 10 := by
        rw [htake, hdecomp]
        exact takeWhile_append_head 'T' pre rest hnoT
      exact congrArg (fun l => some (String.mk l)) hx
  · intro hm
    have hshape : dateShape (pyStrip (pyStr v)).data = true := hm
    obtain ⟨hlen, hnoT, hdash⟩ := dateShape_facts _ hshape
    have hl10 : (pyStrip (pyStr v)).length = 10 := by rw [strLength]; exact hlen
    constructor
    · unfold dtNormalizeDate
      have hyear : matchYear (pyStrip (pyStr v)) = false := by
        unfold matchYear
        have hne : ¬((pyStrip (pyStr v)).length = 4) := by omega
        simp [hne]
      have hiso : matchISO (pyStrip (pyStr v)) = false := by
        unfold matchISO
        have hnone : (pyStrip (pyStr v)).data[10]? = none := by
          rw [List.getElem?_eq_none_iff]
          omega
        simp [hnone]
      simp [hv, hyear, hiso, hm]
    · unfold normalize_date
      simp only [hv, Bool.not_true, Bool.false_eq_true, if_false]
      rw [hT _ hnoT]
      have h4 : ¬((pyStrip (pyStr v)).length = 4) := by omega
      simp [h4, hl10, hdash]
  · intro h1 h2 h3
    unfold dtNormalizeDate
    simp [hv, h1, h2, h3]

/-- C3 witness: the three accepted shapes on concrete inputs. -/
theorem date_normalization_contract_witness :
    pyTruthy (JValue.s "1961-04-18T10:00:00") = true ∧
    matchISO (pyStrip (pyStr (JValue.s "1961-04-18T10:00:00"))) = true ∧
    dtNormalizeDate (JValue.s "1961-04-18T10:00:00") =
      some ⟨(pyStrip (pyStr (JValue.s "1961-04-18T10:00:00"))).data.take 10⟩ ∧
    normalize_date (JValue.s "1961-04-18T10:00:00") =
      some ⟨(pyStrip (pyStr (JValue.s "1961-04-18T10:00:00"))).data.take 10⟩ :=
  ⟨by decide, by decide,
   ((date_normalization_contract (JValue.s "1961-04-18T10:00:00") (by decide)).2.1
     (by decide)).1,
   ((date_normalization_contract (JValue.s "1961-04-18T10:00:00") (by decide)).2.1
     (by decide)).2⟩

/-! ### Identifier-registry lemmas -/

theorem klookup_kinsert_ne (l : List (JKey × Nat)) (k k' : JKey) (v : Nat)
    (h : k ≠ k') : klookup (kinsert k v l) k' = klookup l k' := by
  induction l with
  | nil => simp [kinsert, klookup, h]
  | cons hd tl ih =>
    obtain ⟨k₀, v₀⟩ := hd
    by_cases h₀ : k₀ = k
    · subst h₀; simp [kinsert, klookup, h]
    · simp [kinsert, klookup, h₀, ih]

theorem registerId_lookup_self (reg : Registry) (t : String) (k : JKey) (nid : Nat) :
    klookup ((alookup (registerId reg t k nid) t).getD []) k = some nid := by
  unfold registerId
  rw [alookup_dinsert_self]
  exact klookup_kinsert_self _ _ _

theorem registerId_lookup_other_table (reg : Registry) (t t' : String) (k : JKey)
    (nid : Nat) (h : t ≠ t') :
    alookup (registerId reg t k nid) t' = alookup reg t' := by
  unfold registerId
  exact alookup_dinsert_ne _ _ _ _ h

theorem registerId_lookup_ne_key (reg : Registry) (t t' : String) (k k' : JKey)
    (nid : Nat) (h : k ≠ k') :
    klookup ((alookup (registerId reg t k nid) t').getD []) k' =
      klookup ((alookup reg t').getD []) k' := by
  by_cases ht : t = t'
  · subst ht
    unfold registerId
    rw [alookup_dinsert_self]
    exact klookup_kinsert_ne _ _ _ _ h
  · rw [registerId_lookup_other_table reg t t' k nid ht]

theorem afterCreate_id_mappings (tid : Nat) (t : String)
    (rels : List (String × List JValue)) (st : LoopState) (nid : Nat) :
    (afterCreate tid t rels st nid).id_mappings = st.id_mappings := by
  unfold afterCreate
  repeat' first | rfl | split

/-- Where `processRecord` can touch the registry: either it leaves it
unchanged, or it registers exactly the record's own truthy, hashable `Id`
under the table being imported. -/
theorem processRecord_id_mappings (env : Nat → Option Nat) (tid : Nat) (t : String)
    (fm : List (String × Nat)) (st : LoopState) (item : Record) :
    (processRecord env tid t fm st item).id_mappings = st.id_mappings ∨
    ∃ S sk nid, alookup item "Id" = some S ∧ pyTruthy S = true ∧ toKey S = some sk ∧
      (processRecord env tid t fm st item).id_mappings =
        registerId st.id_mappings t sk nid := by
  unfold processRecord
  dsimp only
  split
  · exact Or.inl rfl
  · cases henv : env st.next_create with
    | none => simp only [henv]; left; trivial
    | some nid =>
      simp only [henv]
      cases halk : alookup item "Id" with
      | none =>
        simp only [halk, Option.getD_none]
        have : pyTruthy JValue.null = false := rfl
        simp only [this, Bool.false_eq_true, if_false]
        exact Or.inl (afterCreate_id_mappings _ _ _ _ _)
      | some S =>
        simp only [halk, Option.getD_some]
        by_cases htr : pyTruthy S = true
        · simp only [htr, if_true]
          cases hkey : toKey S with
          | none => exact Or.inl rfl
          | some sk =>
            simp only [hkey]
            refine Or.inr ⟨S, sk, nid, rfl, htr, hkey, ?_⟩
            rw [afterCreate_id_mappings]
        · simp only [Bool.not_eq_true] at htr
          simp only [htr, Bool.false_eq_true, if_false]
          exact Or.inl (afterCreate_id_mappings _ _ _ _ _)

theorem processItem_id_mappings (env : Nat → Option Nat) (tid : Nat) (t : String)
    (fm : List (String × Nat)) (st : LoopState) (it : JValue) :
    (processItem env tid t fm st it).id_mappings = st.id_mappings ∨
    ∃ kvs S sk nid, it = JValue.obj kvs ∧ alookup kvs "Id" = some S ∧
      pyTruthy S = true ∧ toKey S = some sk ∧
      (processItem env tid t fm st it).id_mappings =
        registerId st.id_mappings t sk nid := by
  cases it with
  | obj kvs =>
    rcases processRecord_id_mappings env tid t fm st kvs with h | ⟨S, sk, nid, h1, h2, h3, h4⟩
    · exact Or.inl h
    · exact Or.inr ⟨kvs, S, sk, nid, rfl, h1, h2, h3, h4⟩
  | null => exact Or.inl rfl
  | b x => exact Or.inl rfl
  | i n => exact Or.inl rfl
  | s v => exact Or.inl rfl
  | arr xs => exact Or.inl rfl

theorem registry_monotone (env : Nat → Option Nat) (tid : Nat) (t : String)
    (fm : List (String × Nat)) (st : LoopState) (it : JValue) (t' : String) (k' : JKey)
    (h : klookup ((alookup st.id_mappings t').getD []) k' ≠ none) :
    klookup ((alookup (processItem env tid t fm st it).id_mappings t').getD []) k' ≠ none := by
  rcases processItem_id_mappings env tid t fm st it with
    hc | ⟨kvs, S, sk, nid, _, _, _, _, hc⟩
  · rw [hc]; exact h
  · rw [hc]
    by_cases ht : t = t'
    · subst ht
      unfold registerId
      rw [alookup_dinsert_self]
      exact klookup_kinsert_isSome _ _ _ _ h
    · rw [registerId_lookup_other_table _ _ _ _ _ ht]
      exact h

theorem registry_absent_preserved (env : Nat → Option Nat) (tid : Nat) (t : String)
    (fm : List (String × Nat)) (sk : JKey) :
    ∀ (items : List JValue) (st : LoopState),
    (∀ J ∈ items, ∀ kvs, J = JValue.obj kvs → ∀ S', alookup kvs "Id" = some S' →
      toKey S' ≠ some sk) →
    klookup ((alookup st.id_mappings t).getD []) sk = none →
    klookup ((alookup (runRecords env tid t fm st items).id_mappings t).getD []) sk = none := by
  intro items
  induction items with
  | nil => intro st _ h; exact h
  | cons it rest ih =>
    intro st hno h
    simp only [runRecords, List.foldl_cons]
    refine ih _ (fun J hJ => hno J (by simp [hJ])) ?_
    rcases processItem_id_mappings env tid t fm st it with
      hc | ⟨kvs, S, sk', nid, hit, hS, htr, hkey, hc⟩
    · rw [hc]; exact h
    · rw [hc]
      have hne : sk' ≠ sk := by
        intro he
        exact hno it (by simp) kvs hit S hS (he ▸ hkey)
      rw [registerId_lookup_ne_key _ _ _ _ _ _ hne]
      exact h

/-- C1 counterexample: a record whose source id is the integer `0` is
successfully created (one create call, success counted) yet never
registered — the lookup of `(Location, 0)` stays absent, refuting the
claim for this processed record. -/
theorem identifier_registry_counterexample :
    (processRecord (fun _ => some 42) 700 "Location" [("location", 1)]
        ⟨[], [], 0, 0, 0, []⟩
        [("Id", JValue.i 0), ("location", JValue.s "Lagos")]).success_count = 1 ∧
    (processRecord (fun _ => some 42) 700 "Location" [("location", 1)]
        ⟨[], [], 0, 0, 0, []⟩
        [("Id", JValue.i 0), ("location", JValue.s "Lagos")]).calls =
      [.createRow 700 [("field_1", .vs "Lagos")]] ∧
    alookup [("Id", JValue.i 0), ("location", JValue.s "Lagos")] "Id" =
      some (JValue.i 0) ∧
    toKey (JValue.i 0) = some (.ki 0) ∧
    klookup ((alookup (processRecord (fun _ => some 42) 700 "Location" [("location", 1)]
        ⟨[], [], 0, 0, 0, []⟩
        [("Id", JValue.i 0), ("location", JValue.s "Lagos")]).id_mappings
      "Location").getD []) (.ki 0) = none :=
  ⟨by decide, by decide, rfl, rfl, by decide⟩

/-- C1 (amended): for a processed record whose source id `S` is truthy and
hashable, the registry entry for `(T, S)` is absent before the record's
successful creation (given it was absent initially and no earlier record
of the run carries id `S`), equals the new destination id `D` immediately
after, and is never removed by later processing; records with a falsy id
and records whose create call fails leave the registry unchanged. -/
theorem identifier_registry_correct (env : Nat → Option Nat) (tid : Nat) (t : String)
    (fm : List (String × Nat)) (st : LoopState) (items₁ : List JValue) (item : Record)
    (S : JValue) (sk : JKey) (D : Nat)
    (hS : alookup item "Id" = some S)
    (htruthy : pyTruthy S = true)
    (hkey : toKey S = some sk)
    (hpre : klookup ((alookup st.id_mappings t).getD []) sk = none)
    (hfresh : ∀ J ∈ items₁, ∀ kvs, J = JValue.obj kvs → ∀ S',
      alookup kvs "Id" = some S' → toKey S' ≠ some sk)
    (hclean : transform_record_data item fm t
      (runRecords env tid t fm st items₁).table_schemas ≠ [])
    (hcreate : env (runRecords env tid t fm st items₁).next_create = some D) :
    klookup ((alookup (runRecords env tid t fm st items₁).id_mappings t).getD []) sk =
      none ∧
    klookup ((alookup (processRecord env tid t fm
      (runRecords env tid t fm st items₁) item).id_mappings t).getD []) sk = some D ∧
    (∀ (st₂ : LoopState) (it : JValue) (t' : String) (k' : JKey),
      klookup ((alookup st₂.id_mappings t').getD []) k' ≠ none →
      klookup ((alookup (processItem env tid t fm st₂ it).id_mappings t').getD []) k' ≠
        none) ∧
    (∀ (st₂ : LoopState) (item' : Record),
      pyTruthy ((alookup item' "Id").getD .null) = false →
      (processRecord env tid t fm st₂ item').id_mappings = st₂.id_mappings) ∧
    (∀ (st₂ : LoopState) (item' : Record),
      transform_record_data item' fm t st₂.table_schemas ≠ [] →
      env st₂.next_create = none →
      (processRecord env tid t fm st₂ item').id_mappings = st₂.id_mappings) := by
  have habs : klookup ((alookup (runRecords env tid t fm st items₁).id_mappings t).getD [])
      sk = none :=
    registry_absent_preserved env tid t fm sk items₁ st hfresh hpre
  refine ⟨habs, ?_, ?_, ?_, ?_⟩
  · set pre := runRecords env tid t fm st items₁ with hpredef
    unfold processRecord
    dsimp only
    have hclean' : (transform_record_data item fm t pre.table_schemas).isEmpty = false := by
      cases hc : transform_record_data item fm t pre.table_schemas with
      | nil => exact absurd hc hclean
      | cons a l => rfl
    simp only [hclean', Bool.false_eq_true, if_false, hcreate, hS, Option.getD_some,
      htruthy, if_true, hkey]
    rw [afterCreate_id_mappings]
    exact registerId_lookup_self _ _ _ _
  · intro st₂ it t' k' h
    exact registry_monotone env tid t fm st₂ it t' k' h
  · intro st₂ item' hid
    unfold processRecord
    dsimp only
    split
    · rfl
    · cases henv : env st₂.next_create with
      | none => simp only [henv]
      | some nid =>
        simp only [henv, hid, Bool.false_eq_true, if_false]
        exact afterCreate_id_mappings _ _ _ _ _
  · intro st₂ item' hcl henv
    unfold processRecord
    dsimp only
    have hcl' : (transform_record_data item' fm t st₂.table_schemas).isEmpty = false := by
      cases hc : transform_record_data item' fm t st₂.table_schemas with
      | nil => exact absurd hc hcl
      | cons a l => rfl
    simp only [hcl', Bool.false_eq_true, if_false, henv]

/-- C1 witness: importing `{"Id": 1, "location": "Lagos"}` into an empty
registry registers `(Location, 1) ↦ 42`. -/
theorem identifier_registry_correct_witness :
    alookup [("Id", JValue.i 1), ("location", JValue.s "Lagos")] "Id" =
      some (JValue.i 1) ∧
    pyTruthy (JValue.i 1) = true ∧ toKey (JValue.i 1) = some (.ki 1) ∧
    klookup ((alookup (([] : Registry)) "Location").getD []) (.ki 1) = none ∧
    klookup ((alookup (processRecord (fun _ => some 42) 700 "Location" [("location", 1)]
        (runRecords (fun _ => some 42) 700 "Location" [("location", 1)]
          ⟨[], [], 0, 0, 0, []⟩ [])
        [("Id", JValue.i 1), ("location", JValue.s "Lagos")]).id_mappings
      "Location").getD []) (.ki 1) = some 42 :=
  ⟨rfl, by decide, rfl, by decide,
   (identifier_registry_correct (fun _ => some 42) 700 "Location" [("location", 1)]
     ⟨[], [], 0, 0, 0, []⟩ [] [("Id", JValue.i 1), ("location", JValue.s "Lagos")]
     (JValue.i 1) (.ki 1) 42 rfl (by decide) rfl (by decide) (by simp)
     (by decide) (by decide)).2.1⟩

end Mig
